import Mathlib

/-!
Verification of the OrderTracker core against its design specification.

The Rust source is shallowly embedded:
* Rust `String` is modelled as `List Char` (named `Str`); `str::trim` drops
  whitespace at both ends, `String::to_lowercase` maps `Char.toLower`
  over the characters (ASCII-level model of Unicode lowercasing), and
  `String::contains` is contiguous-sublist containment.
* `f64` money/weight fields are modelled as `ℚ` (the claims under test
  only use order comparisons with zero and field selection, which agree
  with IEEE semantics on these operations).
* `chrono::DateTime<Utc>` instants are modelled as `Int` milliseconds
  since the Unix epoch.
* Network effects are modelled by passing each call's outcome as an
  explicit argument (per-source fetch results, HTTP pages, OAuth
  responses), making every operation a pure function of its inputs.
-/

namespace OrderTracker

/-- Model of Rust `String` / `&str`: a list of characters. -/
abbrev Str := List Char

/-- Embed a Lean string literal into the model. -/
def strLit (s : String) : Str := s.toList

/-- Model of Rust `String::to_lowercase` (ASCII-level). -/
def lowerStr (s : Str) : Str := s.map Char.toLower

/-- Model of Rust `str::trim`: drop whitespace at both ends. -/
def trimStr (s : Str) : Str :=
  ((s.dropWhile Char.isWhitespace).reverse.dropWhile Char.isWhitespace).reverse

/-- Model of Rust `str::contains(sub)`: `sub` occurs contiguously in `s`. -/
def strContains (s sub : Str) : Bool := decide (sub <:+: s)

-- ---------------------------------------------------------------------------
-- model.rs: MetalType
-- ---------------------------------------------------------------------------

/-- `model.rs` `MetalType`. -/
inductive MetalType where
  | Gold
  | Silver
  | Bronze
  | Unknown
deriving DecidableEq, Repr

/-- `model.rs` `MetalType::from_string`: parse metal type from product
name/variant text (case-insensitive keyword containment, Gold checked
first, then Silver, then Bronze). -/
def MetalType.from_string (s : Str) : MetalType :=
  let lower := lowerStr s
  if strContains lower (strLit "gold") || strContains lower (strLit "14k")
      || strContains lower (strLit "18k") || strContains lower (strLit "10k") then
    MetalType.Gold
  else if strContains lower (strLit "silver") || strContains lower (strLit "sterling")
      || strContains lower (strLit "925") then
    MetalType.Silver
  else if strContains lower (strLit "bronze") || strContains lower (strLit "brass") then
    MetalType.Bronze
  else
    MetalType.Unknown

/-- The fixed Gold keyword table of `MetalType::from_string`. -/
def goldKeywords : List Str := [strLit "gold", strLit "14k", strLit "18k", strLit "10k"]

/-- The fixed Silver keyword table of `MetalType::from_string`. -/
def silverKeywords : List Str := [strLit "silver", strLit "sterling", strLit "925"]

/-- The fixed Bronze keyword table of `MetalType::from_string`. -/
def bronzeKeywords : List Str := [strLit "bronze", strLit "brass"]

/-- Some keyword of the table occurs in the (already lowercased) text. -/
def occursAny (table : List Str) (lower : Str) : Bool :=
  table.any (fun k => strContains lower k)

-- ---------------------------------------------------------------------------
-- model.rs: canonical order model
-- ---------------------------------------------------------------------------

/-- `model.rs` `OrderSource`. -/
inductive OrderSource where
  | Shopify
  | Etsy
deriving DecidableEq, Repr

/-- `model.rs` `OrderItem` (one line within an order). `f64` price as `ℚ`. -/
structure OrderItem where
  name : Str
  quantity : Nat
  price : ℚ
  metal_type : MetalType
  ring_size : Option Str
  variant_info : Option Str
  image_url : Option Str
deriving DecidableEq, Repr

/-- `model.rs` `Order` (one purchase transaction). Instants are `Int`
milliseconds since the Unix epoch. -/
structure Order where
  id : Str
  source : OrderSource
  order_number : Str
  customer_name : Str
  items : List OrderItem
  order_date : Int
  due_date : Int
  total_price : ℚ
  currency : Str
  status : Str
  shipping_address : Option Str
deriving DecidableEq, Repr

-- ---------------------------------------------------------------------------
-- model.rs: piece-cost catalog and matcher
-- ---------------------------------------------------------------------------

/-- `model.rs` `PieceCostRow`: one row from the piece_costs table
(`Option<f64>` fields as `Option ℚ`). -/
structure PieceCostRow where
  design_key : Str
  ring_size : Option Str
  volume_cm3 : Option ℚ
  silver_g : Option ℚ
  silver_usd : Option ℚ
  gold_g : Option ℚ
  gold_usd : Option ℚ
  bronze_g : Option ℚ
  bronze_usd : Option ℚ
  wax_usd : Option ℚ
  product_keys : Option (List Str)
deriving DecidableEq, Repr

/-- `model.rs` `ItemCostWeight`: resolved cost and weight for an order item. -/
structure ItemCostWeight where
  cost_usd : ℚ
  weight_g : ℚ
deriving DecidableEq, Repr

/-- `lookup_piece_cost`'s `item_name_normalized`: lowercase, then trim. -/
def item_name_normalized (item : OrderItem) : Str := trimStr (lowerStr item.name)

/-- `lookup_piece_cost`'s `item_ring`: the item's ring size, trimmed. -/
def item_ring (item : OrderItem) : Option Str := item.ring_size.map trimStr

/-- `model.rs` `ring_matches`: row ring-size constraint against the
(pre-trimmed) item ring size. Arms in source order: no declared size
matches anything; declared `""` or `"N/A"` matches anything; two present
sizes compare trimmed; a specific declared size never matches an absent
item size. -/
def ring_matches (row_ring : Option Str) (item_ring : Option Str) : Bool :=
  match row_ring, item_ring with
  | none, _ => true
  | some s, i =>
    if s == ([] : Str) || s == strLit "N/A" then true
    else
      match i with
      | some isz => trimStr s == trimStr isz
      | none => false

/-- `model.rs` `pick_cost_weight`: resolve cost/weight for the metal
(per-metal fields, `unwrap_or(0.0)`; Unknown sums all three metals), and
return the pair only when `cost > 0 || weight > 0`. -/
def pick_cost_weight (row : PieceCostRow) (metal : MetalType) : Option ItemCostWeight :=
  let cw : ℚ × ℚ :=
    match metal with
    | MetalType.Silver => (row.silver_usd.getD 0, row.silver_g.getD 0)
    | MetalType.Gold => (row.gold_usd.getD 0, row.gold_g.getD 0)
    | MetalType.Bronze => (row.bronze_usd.getD 0, row.bronze_g.getD 0)
    | MetalType.Unknown =>
      (row.silver_usd.getD 0 + row.gold_usd.getD 0 + row.bronze_usd.getD 0,
       row.silver_g.getD 0 + row.gold_g.getD 0 + row.bronze_g.getD 0)
  if 0 < cw.1 ∨ 0 < cw.2 then some ⟨cw.1, cw.2⟩ else none

/-- The alias test of `lookup_piece_cost`'s first loop, for one key `k`:
`k.trim().to_lowercase() == item_name_normalized ||
 item.name.to_lowercase().contains(&k.trim().to_lowercase())`. -/
def aliasKeyHit (item : OrderItem) (k : Str) : Bool :=
  lowerStr (trimStr k) == item_name_normalized item
    || strContains (lowerStr item.name) (lowerStr (trimStr k))

/-- Whether `lookup_piece_cost`'s first loop's `keys.iter().any(..)` test
fires for a row (a row without `product_keys` never fires). -/
def rowAliasHit (item : OrderItem) (row : PieceCostRow) : Bool :=
  match row.product_keys with
  | some keys => keys.any (aliasKeyHit item)
  | none => false

/-- The design-key test of `lookup_piece_cost`'s second loop:
equality with the normalized item name or bidirectional containment. -/
def rowDesignHit (item : OrderItem) (row : PieceCostRow) : Bool :=
  let design_lower := lowerStr row.design_key
  design_lower == item_name_normalized item
    || strContains (item_name_normalized item) design_lower
    || strContains design_lower (item_name_normalized item)

/-- First loop of `lookup_piece_cost` (match by `product_keys`):
`some r` models the loop's early `return r`; `none` models falling
through to the second loop. -/
def aliasLoop (item : OrderItem) : List PieceCostRow → Option (Option ItemCostWeight)
  | [] => none
  | row :: rest =>
    if rowAliasHit item row then
      if ring_matches row.ring_size (item_ring item) then
        some (pick_cost_weight row item.metal_type)
      else aliasLoop item rest
    else aliasLoop item rest

/-- Second loop of `lookup_piece_cost` (match by `design_key`). -/
def designLoop (item : OrderItem) : List PieceCostRow → Option (Option ItemCostWeight)
  | [] => none
  | row :: rest =>
    if rowDesignHit item row then
      if ring_matches row.ring_size (item_ring item) then
        some (pick_cost_weight row item.metal_type)
      else designLoop item rest
    else designLoop item rest

/-- `model.rs` `lookup_piece_cost`: match an order item to a piece_costs
row (alias pass first, then design-key pass) and return cost/weight for
the item's metal type. -/
def lookup_piece_cost (item : OrderItem) (piece_costs : List PieceCostRow) : Option ItemCostWeight :=
  match aliasLoop item piece_costs with
  | some r => r
  | none =>
    match designLoop item piece_costs with
    | some r => r
    | none => none

/-- A row qualifies under the alias tier: alias test and ring-size
constraint both hold (claim-side predicate). -/
def aliasQualifies (item : OrderItem) (row : PieceCostRow) : Bool :=
  rowAliasHit item row && ring_matches row.ring_size (item_ring item)

/-- A row qualifies under the design-key tier: design-key test and
ring-size constraint both hold (claim-side predicate). -/
def designQualifies (item : OrderItem) (row : PieceCostRow) : Bool :=
  rowDesignHit item row && ring_matches row.ring_size (item_ring item)

/-- Claim-side resolved cost for a row and metal: the `{metal}_usd`
field for Gold/Silver/Bronze, the sum of all three for Unknown. -/
def resolvedCost (row : PieceCostRow) (metal : MetalType) : ℚ :=
  match metal with
  | MetalType.Silver => row.silver_usd.getD 0
  | MetalType.Gold => row.gold_usd.getD 0
  | MetalType.Bronze => row.bronze_usd.getD 0
  | MetalType.Unknown => row.silver_usd.getD 0 + row.gold_usd.getD 0 + row.bronze_usd.getD 0

/-- Claim-side resolved weight for a row and metal: the `{metal}_g`
field for Gold/Silver/Bronze, the sum of all three for Unknown. -/
def resolvedWeight (row : PieceCostRow) (metal : MetalType) : ℚ :=
  match metal with
  | MetalType.Silver => row.silver_g.getD 0
  | MetalType.Gold => row.gold_g.getD 0
  | MetalType.Bronze => row.bronze_g.getD 0
  | MetalType.Unknown => row.silver_g.getD 0 + row.gold_g.getD 0 + row.bronze_g.getD 0

-- ---------------------------------------------------------------------------
-- api.rs: aggregator
-- ---------------------------------------------------------------------------

/-- `api.rs` `FetchOrdersResult`. -/
structure FetchOrdersResult where
  orders : List Order
  errors : List Str
deriving DecidableEq, Repr

/-- The comparator of `api.rs` `fetch_all_orders`'s final sort:
`a.due_date.cmp(&b.due_date)` as a `≤` test. -/
def orderLE (a b : Order) : Bool := decide (a.due_date ≤ b.due_date)

/-- `api.rs` `fetch_all_orders`, with each source's network outcome
passed in as a `Except`-typed argument. Successes are concatenated
(Shopify first, as in the source), each failure becomes one labeled
error string, and the merged list is stable-sorted ascending by
`due_date` (Rust `sort_by` is a stable sort; `List.mergeSort` is the
stable sort of the model). The function is total: it never fails. -/
def fetch_all_orders (shopifyRes etsyRes : Except Str (List Order)) : FetchOrdersResult :=
  let shopifyPart : List Order × List Str :=
    match shopifyRes with
    | Except.ok os => (os, [])
    | Except.error e => ([], [strLit "Shopify: " ++ e])
  let etsyPart : List Order × List Str :=
    match etsyRes with
    | Except.ok os => (os, [])
    | Except.error e => ([], [strLit "Etsy: " ++ e])
  { orders := (shopifyPart.1 ++ etsyPart.1).mergeSort orderLE,
    errors := shopifyPart.2 ++ etsyPart.2 }

/-- Claim-side: the orders a source outcome contributes (its orders on
success, nothing on failure). -/
def oksOf (res : Except Str (List Order)) : List Order :=
  match res with
  | Except.ok os => os
  | Except.error _ => []

/-- Claim-side: the labeled diagnostics a source outcome contributes
(nothing on success, one string prefixed with the source label on
failure). -/
def errsOf (label : Str) (res : Except Str (List Order)) : List Str :=
  match res with
  | Except.ok _ => []
  | Except.error e => [label ++ e]

-- ---------------------------------------------------------------------------
-- etsy.rs: OAuth refresh
-- ---------------------------------------------------------------------------

/-- `etsy.rs` `EtsyOAuthConfig`: persisted OAuth state. -/
structure EtsyOAuthConfig where
  refresh_token : Option Str
  access_token : Option Str
  expires_at_utc_secs : Option Int
deriving DecidableEq, Repr

/-- `etsy.rs` `TokenResponse`: a successfully parsed token-endpoint body. -/
structure TokenResponse where
  access_token : Str
  expires_in : Option Nat
  refresh_token : Option Str
deriving DecidableEq, Repr

/-- Outcome of the HTTP POST to the OAuth token endpoint, passed to the
model of `refresh_etsy_token_async` as data: a transport error, a
non-2xx status (with status text and body), or a 2xx response whose
body either parses (`some tok`) or does not (`none`, with the parse
error's text). -/
inductive TokenEndpointOutcome where
  | transportErr (msg : Str)
  | httpFail (statusText : Str) (body : Str)
  | httpOk (parsed : Option TokenResponse) (parseErrMsg : Str)
deriving DecidableEq, Repr

/-- Every outcome except a parsable 2xx response is a refresh failure. -/
def isRefreshFailure : TokenEndpointOutcome → Bool
  | TokenEndpointOutcome.httpOk (some _) _ => false
  | _ => true

/-- Result of the model of `refresh_etsy_token_async`: the returned
value, the in-memory config after the call, and the config written to
durable storage (`none` when `save_etsy_config` was not called). -/
structure RefreshResult where
  result : Except Str Str
  cfg : EtsyOAuthConfig
  persisted : Option EtsyOAuthConfig
deriving Repr

/-- `etsy.rs` `refresh_etsy_token_async`, with the token-endpoint call's
outcome passed as data and the wall clock as `now` (seconds). The three
failure arms return early with an error, before any mutation of `cfg`
and before any `save_etsy_config` call; the success arm updates the
access token, its absolute expiry (`now + expires_in`, default 3600),
any rotated refresh token, and persists the updated config. -/
def refresh_etsy_token_async (cfg : EtsyOAuthConfig) (now : Int)
    (outcome : TokenEndpointOutcome) : RefreshResult :=
  match outcome with
  | TokenEndpointOutcome.transportErr e =>
    ⟨Except.error (strLit "Refresh request failed: " ++ e), cfg, none⟩
  | TokenEndpointOutcome.httpFail statusText body =>
    ⟨Except.error (strLit "Etsy token refresh failed: " ++ statusText ++ strLit " - " ++ body),
      cfg, none⟩
  | TokenEndpointOutcome.httpOk none parseErrMsg =>
    ⟨Except.error (strLit "Parse token response: " ++ parseErrMsg), cfg, none⟩
  | TokenEndpointOutcome.httpOk (some tok) _ =>
    let expires_in : Nat := tok.expires_in.getD 3600
    let cfg' : EtsyOAuthConfig :=
      { refresh_token :=
          match tok.refresh_token with
          | some rt => some rt
          | none => cfg.refresh_token,
        access_token := some tok.access_token,
        expires_at_utc_secs := some (now + (expires_in : Int)) }
    ⟨Except.ok tok.access_token, cfg', some cfg'⟩

-- ---------------------------------------------------------------------------
-- etsy.rs: receipt pagination
-- ---------------------------------------------------------------------------

/-- The fixed page size `LIMIT` of `fetch_etsy_orders`. -/
def etsyPageLimit : Nat := 100

/-- The receipt-pagination loop of `fetch_etsy_orders`, with the server's
(successful) response for each requested offset passed as the function
`server`. Mirrors the source loop: request at `offset`, extend the
accumulator with the whole page, stop when the page has fewer than
`LIMIT` results, else continue at `offset + LIMIT`. No total-count
field is consulted (the model gives the loop no access to one). Returns
the accumulated receipts and the list of requested offsets; `fuel`
bounds the iteration count, `none` meaning the loop was still running. -/
def paginateLoop (server : Nat → List α) : Nat → Nat → Option (List α × List Nat)
  | 0, _ => none
  | fuel + 1, offset =>
    let results := server offset
    if results.length < etsyPageLimit then some (results, [offset])
    else
      match paginateLoop server fuel (offset + etsyPageLimit) with
      | some (rest, offs) => some (results ++ rest, offset :: offs)
      | none => none

-- ---------------------------------------------------------------------------
-- etsy.rs: 60-day lookback filter on receipt timestamps
-- ---------------------------------------------------------------------------

/-- Milliseconds per day. -/
def msPerDay : Int := 86400000

/-- Lower bound of `chrono`'s representable instants, in epoch seconds
(`DateTime::<Utc>::MIN_UTC`, approximately year -262144). -/
def chronoMinSec : Int := -8334601228800

/-- Upper bound of `chrono`'s representable instants, in epoch seconds
(`DateTime::<Utc>::MAX_UTC`, approximately year 262143). -/
def chronoMaxSec : Int := 8210266876799

/-- The `order_date` computation of `fetch_etsy_orders` on a receipt's
`create_timestamp` `ts`: values above `10^12` are milliseconds, others
seconds (`Utc.timestamp_millis_opt` / `Utc.timestamp_opt`); a value
outside `chrono`'s representable range makes `.single()` return `None`
and the code falls back to `Utc::now()` (`unwrap_or`). Result in epoch
milliseconds. -/
def etsyOrderDate (now ts : Int) : Int :=
  if ts > 10 ^ 12 then
    if chronoMinSec * 1000 ≤ ts ∧ ts ≤ chronoMaxSec * 1000 + 999 then ts else now
  else
    if chronoMinSec ≤ ts ∧ ts ≤ chronoMaxSec then ts * 1000 else now

/-- The post-pagination lookback filter of `fetch_etsy_orders`: a receipt
is kept unless its `order_date` is strictly before `now - 60 days`. -/
def etsyReceiptIncluded (now ts : Int) : Bool :=
  !(decide (etsyOrderDate now ts < now - 60 * msPerDay))

/-- Claim-side timestamp interpretation: milliseconds when above
`10^12`, else seconds (no range fallback). Result in epoch milliseconds. -/
def claimOrderDate (ts : Int) : Int := if ts > 10 ^ 12 then ts else ts * 1000

/-- Whether a `create_timestamp` denotes an instant `chrono` can
represent, under the magnitude-based unit disambiguation. -/
def inChronoRange (ts : Int) : Bool :=
  if ts > 10 ^ 12 then decide (chronoMinSec * 1000 ≤ ts ∧ ts ≤ chronoMaxSec * 1000 + 999)
  else decide (chronoMinSec ≤ ts ∧ ts ≤ chronoMaxSec)

-- ---------------------------------------------------------------------------
-- shopify.rs: customer display name
-- ---------------------------------------------------------------------------

/-- `shopify.rs` `ShopifyCustomer`. -/
structure ShopifyCustomer where
  first_name : Option Str
  last_name : Option Str
deriving DecidableEq, Repr

/-- The `customer_name` computation of `fetch_shopify_orders`:
`customer.map(|c| format!("{} {}", first, last).trim()).unwrap_or("Unknown Customer")`
with absent name fields defaulting to the empty string. -/
def derive_customer_name (customer : Option ShopifyCustomer) : Str :=
  match customer with
  | some c => trimStr ((c.first_name.getD []) ++ strLit " " ++ (c.last_name.getD []))
  | none => strLit "Unknown Customer"

-- ---------------------------------------------------------------------------
-- Concrete instances used as counterexample / witness inputs
-- ---------------------------------------------------------------------------

/-- An order item whose name is the empty string (Silver, no ring size). -/
def emptyNameItem : OrderItem :=
  ⟨[], 1, 0, MetalType.Silver, none, none, none⟩

/-- A catalog row with design key "a", no ring-size constraint, silver
cost 1 and no aliases. -/
def rowPlainFirst : PieceCostRow :=
  ⟨strLit "a", none, none, none, some 1, none, none, none, none, none, none⟩

/-- A catalog row with design key "b", no ring-size constraint, silver
cost 2 and a single alias that is the empty string. -/
def rowEmptyAlias : PieceCostRow :=
  ⟨strLit "b", none, none, none, some 2, none, none, none, none, none, some [[]]⟩

/-- A catalog row with design key "ring", no ring-size constraint,
silver cost 3 and no aliases. -/
def rowRingDesign : PieceCostRow :=
  ⟨strLit "ring", none, none, none, some 3, none, none, none, none, none, none⟩

-- ===========================================================================
-- Theorems
-- ===========================================================================

/-- The empty string occurs in every string. -/
theorem strContains_nil (s : Str) : strContains s [] = true := by
  simp [strContains]

/-- The alias pass of `lookup_piece_cost` returns early exactly on the
first row qualifying under the alias tier. -/
theorem aliasLoop_eq_find (item : OrderItem) :
    ∀ pcs : List PieceCostRow,
      aliasLoop item pcs =
        (pcs.find? (aliasQualifies item)).map (fun row => pick_cost_weight row item.metal_type)
  | [] => rfl
  | row :: rest => by
    by_cases h1 : rowAliasHit item row = true
    · by_cases h2 : ring_matches row.ring_size (item_ring item) = true
      · simp [aliasLoop, List.find?_cons, aliasQualifies, h1, h2]
      · simp [aliasLoop, List.find?_cons, aliasQualifies, h1, h2,
          aliasLoop_eq_find item rest]
    · simp [aliasLoop, List.find?_cons, aliasQualifies, h1, aliasLoop_eq_find item rest]

/-- The design-key pass of `lookup_piece_cost` returns early exactly on
the first row qualifying under the design-key tier. -/
theorem designLoop_eq_find (item : OrderItem) :
    ∀ pcs : List PieceCostRow,
      designLoop item pcs =
        (pcs.find? (designQualifies item)).map (fun row => pick_cost_weight row item.metal_type)
  | [] => rfl
  | row :: rest => by
    by_cases h1 : rowDesignHit item row = true
    · by_cases h2 : ring_matches row.ring_size (item_ring item) = true
      · simp [designLoop, List.find?_cons, designQualifies, h1, h2]
      · simp [designLoop, List.find?_cons, designQualifies, h1, h2,
          designLoop_eq_find item rest]
    · simp [designLoop, List.find?_cons, designQualifies, h1, designLoop_eq_find item rest]

/-- Two-tier first-match characterization of `lookup_piece_cost`. -/
theorem lookup_piece_cost_eq_find (item : OrderItem) (pcs : List PieceCostRow) :
    lookup_piece_cost item pcs =
      match pcs.find? (aliasQualifies item) with
      | some row => pick_cost_weight row item.metal_type
      | none =>
        match pcs.find? (designQualifies item) with
        | some row => pick_cost_weight row item.metal_type
        | none => none := by
  unfold lookup_piece_cost
  rw [aliasLoop_eq_find, designLoop_eq_find]
  cases pcs.find? (aliasQualifies item) <;> cases pcs.find? (designQualifies item) <;> rfl

/-- C2: the catalog matcher evaluates its two tiers in a fixed order
over the catalog's natural (load) order: the alias tier is scanned
first, and the first row qualifying there (alias test and ring-size
constraint both satisfied) is the one whose cost/weight is resolved;
only when no alias-tier row qualifies is the catalog scanned by design
key, where again the first qualifying row is resolved, with no
best-match scoring. -/
theorem lookup_piece_cost_two_tier_first_match (item : OrderItem) (pcs : List PieceCostRow) :
    lookup_piece_cost item pcs =
      match pcs.find? (aliasQualifies item) with
      | some row => pick_cost_weight row item.metal_type
      | none =>
        match pcs.find? (designQualifies item) with
        | some row => pick_cost_weight row item.metal_type
        | none => none :=
  lookup_piece_cost_eq_find item pcs

/-- How the guarded pair return of `pick_cost_weight` relates to the
resolved cost/weight values. -/
theorem guarded_pair_spec (C W c w : ℚ) :
    ((if 0 < C ∨ 0 < W then some (⟨C, W⟩ : ItemCostWeight) else none) = some ⟨c, w⟩ ↔
      c = C ∧ w = W ∧ (0 < c ∨ 0 < w)) ∧
    ((if 0 < C ∨ 0 < W then some (⟨C, W⟩ : ItemCostWeight) else none) = none ↔
      C ≤ 0 ∧ W ≤ 0) := by
  constructor
  · constructor
    · intro heq
      split at heq
      · rename_i h
        obtain ⟨hc, hw⟩ : C = c ∧ W = w := by
          simpa [ItemCostWeight.mk.injEq] using heq
        subst hc
        subst hw
        exact ⟨rfl, rfl, h⟩
      · exact absurd heq (by simp)
    · rintro ⟨rfl, rfl, hpos⟩
      rw [if_pos hpos]
  · constructor
    · intro heq
      split at heq
      · exact absurd heq (by simp)
      · rename_i h
        rw [not_or, not_lt, not_lt] at h
        exact h
    · rintro ⟨hC, hW⟩
      rw [if_neg]
      rw [not_or, not_lt, not_lt]
      exact ⟨hC, hW⟩

/-- C4: once a qualifying row is found, cost/weight resolution returns
`some` exactly when the resolved cost or the resolved weight is
positive (per-metal fields for Gold/Silver/Bronze, the three-metal sum
for Unknown), and a row whose fields for the resolved metal are all
absent or zero yields `none`, never `some {0, 0}`. -/
theorem pick_cost_weight_spec (row : PieceCostRow) (metal : MetalType) :
    (∀ c w : ℚ, pick_cost_weight row metal = some ⟨c, w⟩ ↔
      c = resolvedCost row metal ∧ w = resolvedWeight row metal ∧ (0 < c ∨ 0 < w)) ∧
    (pick_cost_weight row metal = none ↔
      resolvedCost row metal ≤ 0 ∧ resolvedWeight row metal ≤ 0) := by
  cases metal <;>
    exact ⟨fun c w => (guarded_pair_spec _ _ c w).1, (guarded_pair_spec _ _ 0 0).2⟩

/-- C4 witness: a row with all metal fields absent resolves to no data,
and a silver-cost-only row resolves to its silver pair. -/
theorem pick_cost_weight_spec_witness :
    pick_cost_weight ⟨strLit "a", none, none, none, none, none, none, none, none, none, none⟩
      MetalType.Gold = none ∧
    pick_cost_weight rowPlainFirst MetalType.Silver = some ⟨1, 0⟩ :=
  ⟨(pick_cost_weight_spec _ MetalType.Gold).2.mpr ⟨by decide, by decide⟩,
   ((pick_cost_weight_spec rowPlainFirst MetalType.Silver).1 1 0).mpr
      ⟨by decide, by decide, Or.inl (by decide)⟩⟩

/-- C5: the ring-size qualification predicate: a row with no declared
ring size, or with declared size `""` or `"N/A"`, matches every item
(including items with no ring size); a row with any other declared size
matches exactly the items whose trimmed size equals the row's trimmed
size, and never an item with no ring size. -/
theorem ring_matches_spec (rr ir : Option Str) :
    ((rr = none ∨ rr = some ([] : Str) ∨ rr = some (strLit "N/A")) →
      ring_matches rr ir = true) ∧
    (∀ s, rr = some s → s ≠ ([] : Str) → s ≠ strLit "N/A" →
      (ring_matches rr ir = true ↔ ∃ isz, ir = some isz ∧ trimStr isz = trimStr s)) := by
  constructor
  · rintro (rfl | rfl | rfl) <;> cases ir <;> rfl
  · rintro s rfl hne hna
    have h1 : (s == ([] : Str)) = false := beq_eq_false_iff_ne.mpr hne
    have h2 : (s == strLit "N/A") = false := beq_eq_false_iff_ne.mpr hna
    cases ir with
    | none =>
      have hred : ring_matches (some s) none =
          if (s == ([] : Str) || s == strLit "N/A") = true then true else false := rfl
      rw [hred, h1, h2]
      constructor
      · intro habs
        simp at habs
      · rintro ⟨isz, hisz, -⟩
        exact absurd hisz (by simp)
    | some isz =>
      have hred : ring_matches (some s) (some isz) =
          if (s == ([] : Str) || s == strLit "N/A") = true then true
          else (trimStr s == trimStr isz) := rfl
      rw [hred, h1, h2, if_neg (by decide)]
      constructor
      · intro htrim
        exact ⟨isz, rfl, (beq_iff_eq.mp htrim).symm⟩
      · rintro ⟨isz', hmk, htrim⟩
        obtain rfl : isz = isz' := by simpa using hmk
        exact beq_iff_eq.mpr htrim.symm

/-- C5 witness: a `"N/A"` row matches a sizeless item, and a size-7 row
matches an item whose size trims to 7. -/
theorem ring_matches_spec_witness :
    ring_matches (some (strLit "N/A")) none = true ∧
    ring_matches (some (strLit "7")) (some (strLit " 7 ")) = true :=
  ⟨(ring_matches_spec (some (strLit "N/A")) none).1 (Or.inr (Or.inr rfl)),
   ((ring_matches_spec (some (strLit "7")) (some (strLit " 7 "))).2 (strLit "7") rfl
      (by decide) (by decide)).mpr ⟨strLit " 7 ", rfl, by decide⟩⟩

/-- `MetalType.from_string` as a cascade over the keyword tables. -/
theorem from_string_cascade (s : Str) :
    MetalType.from_string s =
      if occursAny goldKeywords (lowerStr s) then MetalType.Gold
      else if occursAny silverKeywords (lowerStr s) then MetalType.Silver
      else if occursAny bronzeKeywords (lowerStr s) then MetalType.Bronze
      else MetalType.Unknown := by
  simp only [MetalType.from_string, occursAny, goldKeywords, silverKeywords, bronzeKeywords,
    List.any_cons, List.any_nil, Bool.or_false, Bool.or_assoc]

/-- C3: metal-type inference is a deterministic pure function of the
product text, matching case-insensitively against fixed keyword tables
with priority Gold, then Silver, then Bronze, then Unknown: any Gold
keyword forces Gold even when Silver or Bronze keywords also occur. -/
theorem metal_type_priority (s : Str) :
    (occursAny goldKeywords (lowerStr s) = true →
      MetalType.from_string s = MetalType.Gold) ∧
    (occursAny goldKeywords (lowerStr s) = false →
      occursAny silverKeywords (lowerStr s) = true →
      MetalType.from_string s = MetalType.Silver) ∧
    (occursAny goldKeywords (lowerStr s) = false →
      occursAny silverKeywords (lowerStr s) = false →
      occursAny bronzeKeywords (lowerStr s) = true →
      MetalType.from_string s = MetalType.Bronze) ∧
    (occursAny goldKeywords (lowerStr s) = false →
      occursAny silverKeywords (lowerStr s) = false →
      occursAny bronzeKeywords (lowerStr s) = false →
      MetalType.from_string s = MetalType.Unknown) := by
  refine ⟨?_, ?_, ?_, ?_⟩
  · intro h1
    simp [from_string_cascade, h1]
  · intro h1 h2
    simp [from_string_cascade, h1, h2]
  · intro h1 h2 h3
    simp [from_string_cascade, h1, h2, h3]
  · intro h1 h2 h3
    simp [from_string_cascade, h1, h2, h3]

/-- C3 witness: text containing both a Gold keyword and a Silver keyword
classifies as Gold. -/
theorem metal_type_priority_witness :
    occursAny goldKeywords (lowerStr (strLit "14k Silver Ring")) = true ∧
    occursAny silverKeywords (lowerStr (strLit "14k Silver Ring")) = true ∧
    MetalType.from_string (strLit "14k Silver Ring") = MetalType.Gold :=
  ⟨by decide, by decide, (metal_type_priority (strLit "14k Silver Ring")).1 (by decide)⟩

/-- C8: for every failure mode of the OAuth refresh grant (transport
error, non-2xx status, or unparsable body), token acquisition returns a
refresh-failed error and neither the in-memory config nor durable
storage is touched. -/
theorem refresh_failure_preserves_state (cfg : EtsyOAuthConfig) (now : Int)
    (outcome : TokenEndpointOutcome) (h : isRefreshFailure outcome = true) :
    (∃ e, (refresh_etsy_token_async cfg now outcome).result = Except.error e) ∧
    (refresh_etsy_token_async cfg now outcome).cfg = cfg ∧
    (refresh_etsy_token_async cfg now outcome).persisted = none := by
  cases outcome with
  | transportErr e => exact ⟨⟨_, rfl⟩, rfl, rfl⟩
  | httpFail statusText body => exact ⟨⟨_, rfl⟩, rfl, rfl⟩
  | httpOk parsed parseErrMsg =>
    cases parsed with
    | none => exact ⟨⟨_, rfl⟩, rfl, rfl⟩
    | some tok => exact absurd h (by simp [isRefreshFailure])

/-- C8 witness: a non-2xx token-endpoint response errors out and
leaves the stored config untouched. -/
theorem refresh_failure_preserves_state_witness :
    (∃ e, (refresh_etsy_token_async ⟨some (strLit "rt"), some (strLit "at"), some 99⟩ 0
      (TokenEndpointOutcome.httpFail (strLit "500") (strLit "oops"))).result = Except.error e) ∧
    (refresh_etsy_token_async ⟨some (strLit "rt"), some (strLit "at"), some 99⟩ 0
      (TokenEndpointOutcome.httpFail (strLit "500") (strLit "oops"))).cfg
        = ⟨some (strLit "rt"), some (strLit "at"), some 99⟩ ∧
    (refresh_etsy_token_async ⟨some (strLit "rt"), some (strLit "at"), some 99⟩ 0
      (TokenEndpointOutcome.httpFail (strLit "500") (strLit "oops"))).persisted = none :=
  refresh_failure_preserves_state ⟨some (strLit "rt"), some (strLit "at"), some 99⟩ 0
    (TokenEndpointOutcome.httpFail (strLit "500") (strLit "oops")) rfl

/-- C9 (counterexample): a raw order whose customer object is present
but whose first/last name fields are both absent gets the empty display
name, not "Unknown Customer" — so the claim "defaults to Unknown
Customer whenever those name fields are absent" fails on the code. -/
theorem derive_customer_name_counterexample :
    derive_customer_name (some ⟨none, none⟩) = ([] : Str) ∧
    derive_customer_name (some ⟨none, none⟩) ≠ strLit "Unknown Customer" := by
  constructor
  · decide
  · decide

/-- C9 (amended): the customer display name is the trimmed
space-joined first/last name fields (absent fields as empty strings)
when a customer object is present, and defaults to "Unknown Customer"
exactly when the whole customer object is absent. -/
theorem derive_customer_name_spec :
    derive_customer_name none = strLit "Unknown Customer" ∧
    ∀ firstName lastName : Option Str,
      derive_customer_name (some ⟨firstName, lastName⟩) =
        trimStr (firstName.getD [] ++ strLit " " ++ lastName.getD []) :=
  ⟨rfl, fun _ _ => rfl⟩

/-- C10 (counterexample): a catalog row whose alias trims to the empty
string preempts the design-key tier, so the empty-named item is
resolved against that row, not against the first row of the catalog
that satisfies its ring-size constraint — the claim's consequent fails
on such a catalog. -/
theorem empty_name_match_counterexample :
    item_name_normalized emptyNameItem = ([] : Str) ∧
    ring_matches rowPlainFirst.ring_size (item_ring emptyNameItem) = true ∧
    lookup_piece_cost emptyNameItem [rowPlainFirst, rowEmptyAlias] = some ⟨2, 0⟩ ∧
    pick_cost_weight rowPlainFirst emptyNameItem.metal_type = some ⟨1, 0⟩ ∧
    lookup_piece_cost emptyNameItem [rowPlainFirst, rowEmptyAlias] ≠
      pick_cost_weight rowPlainFirst emptyNameItem.metal_type := by
  refine ⟨?_, ?_, ?_, ?_, ?_⟩ <;> decide

/-- C10 (amended): for an item whose name normalizes to the empty
string, the design-key tier's bidirectional substring test succeeds
against every catalog row; hence, provided no row qualifies under the
alias tier, the matcher resolves the item to the first row (in load
order) whose ring-size constraint it satisfies, rather than yielding
no match. -/
theorem empty_name_matches_first_ring_row (item : OrderItem) (pcs : List PieceCostRow)
    (hname : item_name_normalized item = ([] : Str))
    (halias : pcs.find? (aliasQualifies item) = none) :
    (∀ row, rowDesignHit item row = true) ∧
    lookup_piece_cost item pcs =
      match pcs.find? (fun row => ring_matches row.ring_size (item_ring item)) with
      | some row => pick_cost_weight row item.metal_type
      | none => none := by
  have hhit : ∀ row, rowDesignHit item row = true := by
    intro row
    unfold rowDesignHit
    rw [hname]
    simp [strContains_nil]
  refine ⟨hhit, ?_⟩
  have hq : designQualifies item = fun row => ring_matches row.ring_size (item_ring item) := by
    funext row
    unfold designQualifies
    rw [hhit row, Bool.true_and]
  rw [lookup_piece_cost_eq_find, halias, hq]

/-- C10 witness: an empty-named item against a one-row catalog with an
unrelated design key resolves to that row's silver cost. -/
theorem empty_name_matches_first_ring_row_witness :
    lookup_piece_cost emptyNameItem [rowRingDesign] = some ⟨3, 0⟩ := by
  have h := (empty_name_matches_first_ring_row emptyNameItem [rowRingDesign]
    (by decide) (by decide)).2
  exact h.trans (by decide)

/-- C6 (counterexample): a receipt whose `create_timestamp` is `-10^16`
(interpreted as seconds, an instant far older than 60 days — indeed
outside `chrono`'s representable range) is nevertheless included,
because the out-of-range timestamp falls back to `Utc::now()`; so the
claimed "included iff no older than 60 days" fails on the code. -/
theorem etsy_lookback_counterexample :
    etsyReceiptIncluded 1760227200000 (-(10 ^ 16)) = true ∧
    claimOrderDate (-(10 ^ 16)) < 1760227200000 - 60 * msPerDay := by
  constructor
  · decide
  · decide

/-- C6 (amended): the post-pagination filter includes a receipt iff its
creation timestamp — milliseconds when above `10^12`, seconds otherwise
— resolves to an instant no older than 60 days before the current
time, provided the resolved instant is representable by the datetime
library; a timestamp resolving outside that range falls back to the
current time and is always included. -/
theorem etsy_lookback_spec (now ts : Int) :
    etsyReceiptIncluded now ts = true ↔
      (inChronoRange ts = true → now - 60 * msPerDay ≤ claimOrderDate ts) := by
  unfold etsyReceiptIncluded etsyOrderDate inChronoRange claimOrderDate msPerDay
  by_cases hts : ts > 10 ^ 12
  · rw [if_pos hts, if_pos hts, if_pos hts]
    by_cases hr : chronoMinSec * 1000 ≤ ts ∧ ts ≤ chronoMaxSec * 1000 + 999
    · rw [if_pos hr, decide_eq_true hr]
      constructor
      · intro h _
        simp only [Bool.not_eq_eq_eq_not, Bool.not_true, decide_eq_false_iff_not, not_lt] at h
        omega
      · intro h
        have := h (by simp [hr])
        simp only [Bool.not_eq_eq_eq_not, Bool.not_true, decide_eq_false_iff_not, not_lt]
        omega
    · rw [if_neg hr]
      have hfalse : decide (chronoMinSec * 1000 ≤ ts ∧ ts ≤ chronoMaxSec * 1000 + 999) = false :=
        decide_eq_false hr
      rw [hfalse]
      constructor
      · intro _ habs
        exact absurd habs (by simp)
      · intro _
        simp only [Bool.not_eq_eq_eq_not, Bool.not_true, decide_eq_false_iff_not, not_lt]
        omega
  · rw [if_neg hts, if_neg hts, if_neg hts]
    by_cases hr : chronoMinSec ≤ ts ∧ ts ≤ chronoMaxSec
    · rw [if_pos hr, decide_eq_true hr]
      constructor
      · intro h _
        simp only [Bool.not_eq_eq_eq_not, Bool.not_true, decide_eq_false_iff_not, not_lt] at h
        omega
      · intro h
        have := h rfl
        simp only [Bool.not_eq_eq_eq_not, Bool.not_true, decide_eq_false_iff_not, not_lt]
        omega
    · rw [if_neg hr, decide_eq_false hr]
      constructor
      · intro _ habs
        exact absurd habs (by simp)
      · intro _
        simp only [Bool.not_eq_eq_eq_not, Bool.not_true, decide_eq_false_iff_not, not_lt]
        omega

/-- C6 witness: at a fixed current time, a receipt 10 days old (seconds
epoch) is included. -/
theorem etsy_lookback_spec_witness :
    etsyReceiptIncluded 1760227200000 1759363200 = true :=
  (etsy_lookback_spec 1760227200000 1759363200).mpr (fun _ => by decide)

/-- Behaviour of the pagination loop started at page index `k`, when
page `N` is the first page shorter than the page size: with enough fuel
it returns pages `k..N` concatenated, having requested exactly the
offsets `limit*k, limit*(k+1), ..., limit*N`. -/
theorem paginateLoop_from {α : Type} (server : Nat → List α) (N : Nat)
    (hshort : (server (etsyPageLimit * N)).length < etsyPageLimit)
    (hfull : ∀ j, j < N → ¬ (server (etsyPageLimit * j)).length < etsyPageLimit) :
    ∀ fuel k, k ≤ N → N - k < fuel →
      paginateLoop server fuel (etsyPageLimit * k) =
        some (((List.range' k (N + 1 - k)).map (fun i => server (etsyPageLimit * i))).flatten,
              (List.range' k (N + 1 - k)).map (fun i => etsyPageLimit * i)) := by
  intro fuel
  induction fuel with
  | zero =>
    intro k _ hf
    omega
  | succ fuel ih =>
    intro k hk hf
    by_cases hkN : k = N
    · subst hkN
      have hone : k + 1 - k = 1 := by omega
      rw [paginateLoop, if_pos hshort, hone, List.range'_one]
      simp
    · have hklt : k < N := lt_of_le_of_ne hk hkN
      have hns := hfull k hklt
      have harith : etsyPageLimit * k + etsyPageLimit = etsyPageLimit * (k + 1) := by ring
      have hrange' : N + 1 - (k + 1) = N - k := by omega
      have hih := ih (k + 1) (by omega) (by omega)
      rw [hrange'] at hih
      have hrange : N + 1 - k = (N - k) + 1 := by omega
      rw [paginateLoop, if_neg hns, harith, hih, hrange, List.range'_succ]
      simp

/-- C7: marketplace pagination requests pages sequentially at offsets
0, limit, 2*limit, ... (limit = 100) and terminates exactly after the
first page whose item count is strictly below the page size, returning
all pages up to and including that one; no total-count field exists in
the model for it to consult. -/
theorem etsy_pagination_spec {α : Type} (server : Nat → List α) (N fuel : Nat)
    (hshort : (server (etsyPageLimit * N)).length < etsyPageLimit)
    (hfull : ∀ j, j < N → ¬ (server (etsyPageLimit * j)).length < etsyPageLimit)
    (hfuel : N < fuel) :
    paginateLoop server fuel 0 =
      some (((List.range (N + 1)).map (fun k => server (etsyPageLimit * k))).flatten,
            (List.range (N + 1)).map (fun k => etsyPageLimit * k)) := by
  have h := paginateLoop_from server N hshort hfull fuel 0 (Nat.zero_le N) (by omega)
  rw [List.range_eq_range']
  simpa using h

/-- C7 witness: a full page at offset 0 followed by a 1-element page at
offset 100 terminates the loop with both pages accumulated and exactly
the offsets 0 and 100 requested. -/
theorem etsy_pagination_spec_witness :
    paginateLoop (fun offset => if offset = 0 then List.replicate 100 (0 : Nat) else [7]) 2 0 =
      some (List.replicate 100 0 ++ [7], [0, 100]) := by
  have h := etsy_pagination_spec
    (fun offset => if offset = 0 then List.replicate 100 (0 : Nat) else [7]) 1 2
    (by decide) (by decide) (by omega)
  exact h.trans (by decide)

/-- The sort comparator is transitive. -/
theorem orderLE_trans : ∀ a b c : Order, orderLE a b = true → orderLE b c = true →
    orderLE a c = true := by
  intro a b c hab hbc
  simp only [orderLE, decide_eq_true_eq] at *
  omega

/-- The sort comparator is total. -/
theorem orderLE_total : ∀ a b : Order, (orderLE a b || orderLE b a) = true := by
  intro a b
  simp only [orderLE, Bool.or_eq_true, decide_eq_true_eq]
  omega

/-- `fetch_all_orders` sorts exactly the concatenation of the two
sources' successful results. -/
theorem fetch_all_orders_orders_eq (shopifyRes etsyRes : Except Str (List Order)) :
    (fetch_all_orders shopifyRes etsyRes).orders =
      (oksOf shopifyRes ++ oksOf etsyRes).mergeSort orderLE := by
  cases shopifyRes <;> cases etsyRes <;> rfl

/-- Merge-sorting by due date does not disturb the relative order of
orders sharing any fixed due date (stability). -/
theorem mergeSort_filter_due (l : List Order) (d : Int) :
    (l.mergeSort orderLE).filter (fun o => decide (o.due_date = d)) =
      l.filter (fun o => decide (o.due_date = d)) := by
  have hpw : (l.filter (fun o => decide (o.due_date = d))).Pairwise
      (fun a b => orderLE a b = true) := by
    apply List.pairwise_of_forall_mem_list
    intro a ha b hb
    have ha' : a.due_date = d := by simpa using (List.mem_filter.mp ha).2
    have hb' : b.due_date = d := by simpa using (List.mem_filter.mp hb).2
    simp [orderLE, ha', hb']
  have hsub : List.Sublist (l.filter (fun o => decide (o.due_date = d)))
      (l.mergeSort orderLE) :=
    List.sublist_mergeSort orderLE_trans orderLE_total hpw (List.filter_sublist l)
  have hsub2 : List.Sublist (l.filter (fun o => decide (o.due_date = d)))
      ((l.mergeSort orderLE).filter (fun o => decide (o.due_date = d))) := by
    have h := hsub.filter (fun o => decide (o.due_date = d))
    rwa [List.filter_eq_self.mpr (fun a ha => (List.mem_filter.mp ha).2)] at h
  have hperm : List.Perm ((l.mergeSort orderLE).filter (fun o => decide (o.due_date = d)))
      (l.filter (fun o => decide (o.due_date = d))) :=
    (List.mergeSort_perm l orderLE).filter _
  exact (hsub2.eq_of_length hperm.length_eq.symm).symm

/-- C1: the aggregator never fails outright: for every combination of
per-source outcomes it returns one labeled error string per failed
source (Shopify's first), a failure of one source never suppressing the
other's orders, and the order list is a permutation of the
concatenation of the successful fetches, sorted ascending by
`due_date`, with the input order preserved among orders sharing a due
date (stable sort). -/
theorem fetch_all_orders_spec (shopifyRes etsyRes : Except Str (List Order)) :
    (fetch_all_orders shopifyRes etsyRes).errors =
      errsOf (strLit "Shopify: ") shopifyRes ++ errsOf (strLit "Etsy: ") etsyRes ∧
    List.Perm (fetch_all_orders shopifyRes etsyRes).orders
      (oksOf shopifyRes ++ oksOf etsyRes) ∧
    (fetch_all_orders shopifyRes etsyRes).orders.Pairwise
      (fun a b => a.due_date ≤ b.due_date) ∧
    ∀ d : Int, (fetch_all_orders shopifyRes etsyRes).orders.filter
        (fun o => decide (o.due_date = d)) =
      (oksOf shopifyRes ++ oksOf etsyRes).filter (fun o => decide (o.due_date = d)) := by
  refine ⟨?_, ?_, ?_, ?_⟩
  · cases shopifyRes <;> cases etsyRes <;> rfl
  · rw [fetch_all_orders_orders_eq]
    exact List.mergeSort_perm _ orderLE
  · rw [fetch_all_orders_orders_eq]
    have h := List.sorted_mergeSort orderLE_trans orderLE_total
      (oksOf shopifyRes ++ oksOf etsyRes)
    exact h.imp (fun hab => by simpa [orderLE] using hab)
  · intro d
    rw [fetch_all_orders_orders_eq]
    exact mergeSort_filter_due _ d

end OrderTracker
